import Mathlib

/-!
# Shallow embedding of the `clog` package (github.com/alcionai/clog)

This file embeds the data model and operations of the `clog` Go package:
the log `builder` (`builder.go`), the `Settings` resolver and log-file path
resolution (`settings.go`), the process-wide logger singleton, and the
`Writer` byte-stream adapter.

Modelling conventions:

* Go maps (`map[any]any`, `map[string]any`, `map[string]struct{}`) are
  modelled as association lists where the LAST binding of a key is its
  value (`getv`).  A map assignment `m[k] = v` is modelled as appending
  `(k, v)`; this has exactly the mapping-level semantics of the Go
  assignment.  `maps.Copy(dst, src)` therefore becomes `dst ++ src`.
* A nil Go map is distinguished from an empty one: builder fields that the
  Go code leaves at their zero value (nil) are `Option`-typed with `none`
  for nil.  Reading a nil map (iteration, `maps.Keys`) is fine in Go and
  yields nothing; writing to a nil map panics, which we model by returning
  `none` (`Option Builder`) from the mutator.
* `any` values are modelled by the closed inductive `Val` (the claims only
  exercise strings, ints, nil and string lists); record values additionally
  carry attached Go errors (`RVal`).
* Ambient process state read by `settings.go` (the `ResolvedLogFile`
  package variable, the `CLOG_FILE` environment variable, `$HOME`, the
  current UTC timestamp, and whether `os.MkdirAll` succeeds) is gathered in
  an explicit `OsEnv` record and threaded by hand.
-/

namespace Clog

/-- Values stored in clues/builder metadata (Go `any`). -/
inductive Val where
  | vstr : String → Val
  | vint : Int → Val
  | vnil : Val
  | vstrs : List String → Val
deriving DecidableEq, Repr

/-- A clues-style Go error: message, structured metadata
(`clues.InErr(err).Map()`) and labels (`clues.Labels(err)`). -/
structure GoError where
  msg : String
  data : List (String × Val)
  labels : List String
deriving DecidableEq, Repr

/-- A value appearing in an emitted record field: either a plain value or
an attached Go error (the `With("error", b.err)` field). -/
inductive RVal where
  | base : Val → RVal
  | errv : GoError → RVal
deriving DecidableEq, Repr

/-! ## Association lists with last-binding-wins lookup -/

/-- Left-biased choice on options. -/
def oor {β : Type} : Option β → Option β → Option β
  | some v, _ => some v
  | none, o => o

@[simp] theorem oor_none_left {β : Type} (o : Option β) : oor none o = o := rfl

@[simp] theorem oor_some_left {β : Type} (v : β) (o : Option β) :
    oor (some v) o = some v := rfl

@[simp] theorem oor_none_right {β : Type} (o : Option β) : oor o none = o := by
  cases o <;> rfl

theorem oor_assoc {β : Type} (a b c : Option β) :
    oor (oor a b) c = oor a (oor b c) := by
  cases a <;> rfl

/-- Lookup in an association list where the LAST binding of a key wins
(the mapping-level semantics of a Go map built by successive
assignments). -/
def getv {α β : Type} [DecidableEq α] : List (α × β) → α → Option β
  | [], _ => none
  | p :: rest, k => oor (getv rest k) (if p.1 = k then some p.2 else none)

@[simp] theorem getv_nil {α β : Type} [DecidableEq α] (k : α) :
    getv ([] : List (α × β)) k = none := rfl

theorem getv_cons {α β : Type} [DecidableEq α] (p : α × β) (l : List (α × β)) (k : α) :
    getv (p :: l) k = oor (getv l k) (if p.1 = k then some p.2 else none) := rfl

theorem getv_append {α β : Type} [DecidableEq α] (a b : List (α × β)) (k : α) :
    getv (a ++ b) k = oor (getv b k) (getv a k) := by
  induction a with
  | nil => simp
  | cons p a ih =>
      simp only [List.cons_append, getv_cons, ih, oor_assoc]

@[simp] theorem getv_singleton {α β : Type} [DecidableEq α] (k k' : α) (v : β) :
    getv [(k, v)] k' = if k = k' then some v else none := by
  simp [getv_cons]

theorem map_oor {β γ : Type} (f : β → γ) (a b : Option β) :
    Option.map f (oor a b) = oor (Option.map f a) (Option.map f b) := by
  cases a <;> rfl

/-! ## The builder (`builder.go`) -/

/-- Log levels (`type level string` with `lvlDebug`, `lvlInfo`, `lvlError`). -/
def lvlDebug : String := "debug"

def lvlInfo : String := "info"

def lvlError : String := "error"

/-- The `builder` struct.  `ctxData` stands for the clues metadata carried
by `b.ctx` (`clues.In(b.ctx).Map()`, string keys); `zsl` is not modelled —
the emission goes into the returned `Record` instead.  `withMap`, `labels`
and `comments` are `Option`-typed because `newBuilder` leaves the
corresponding Go maps nil. -/
structure Builder where
  ctxData : List (String × Val)
  err : Option GoError
  withMap : Option (List (Val × Val))
  labels : Option (List String)
  comments : Option (List String)
deriving DecidableEq, Repr

/-- `newBuilder(ctx)`: only `ctx` and `zsl` are set; `with`, `labels` and
`comments` stay at their zero value — nil Go maps. -/
def newBuilder (ctxData : List (String × Val)) : Builder :=
  { ctxData := ctxData
    err := none
    withMap := none
    labels := none
    comments := none }

/-- `Ctx(ctx)` returns `newBuilder(ctx)`. -/
def Ctx (ctxData : List (String × Val)) : Builder :=
  newBuilder ctxData

/-- `CtxErr(ctx, err)`: a fresh builder with `nb.err = err`. -/
def CtxErr (ctxData : List (String × Val)) (err : GoError) : Builder :=
  { newBuilder ctxData with err := some err }

/-- `maps.Keys` of a possibly-nil Go set-map: iteration over nil yields
nothing. -/
def keysOf (o : Option (List String)) : List String :=
  o.getD []

/-- One emitted structured record: the level method invoked, the message,
and the `With`-field sequence handed to the zap sugared logger in emission
order (the "merged key/value set" is `Record.get`, last write wins). -/
structure Record where
  lvl : String
  msg : String
  fields : List (Val × RVal)
deriving DecidableEq, Repr

/-- The merged key/value mapping carried by a record. -/
def Record.get (r : Record) (k : Val) : Option RVal :=
  getv r.fields k

/-- The field sequence assembled by `builder.log`:
`cv := clues.In(b.ctx).Map()`; if an error is attached, overlay
`clues.InErr(b.err).Map()` onto `cv` (`maps.Copy`, error wins) and attach
`error` / `error_labels` first; then all of `cv`, then `b.with`, then the
fixed `clog_labels` / `clog_comments` entries. -/
def Builder.logFields (b : Builder) : List (Val × RVal) :=
  let cv : List (String × Val) :=
    match b.err with
    | none => b.ctxData
    | some e => b.ctxData ++ e.data
  let errFields : List (Val × RVal) :=
    match b.err with
    | none => []
    | some e => [(Val.vstr "error", RVal.errv e),
                 (Val.vstr "error_labels", RVal.base (Val.vstrs e.labels))]
  errFields
    ++ cv.map (fun p => (Val.vstr p.1, RVal.base p.2))
    ++ (match b.withMap with
        | none => []
        | some m => m.map (fun p => (p.1, RVal.base p.2)))
    ++ [(Val.vstr "clog_labels", RVal.base (Val.vstrs (keysOf b.labels))),
        (Val.vstr "clog_comments", RVal.base (Val.vstrs (keysOf b.comments)))]

/-- `builder.log(l, msg)`: assemble the fields and write one record to the
underlying logger.  The trailing `switch` emits only for the three known
levels (no default case), hence the `Option`. -/
def Builder.log (b : Builder) (l : String) (msg : String) : Option Record :=
  if l = lvlDebug ∨ l = lvlInfo ∨ l = lvlError then
    some { lvl := l, msg := msg, fields := b.logFields }
  else
    none

/-- `builder.Err(err)`: plain field assignment, never panics. -/
def Builder.Err (b : Builder) (err : GoError) : Builder :=
  { b with err := some err }

/-- Set-map insertion (`m[x] = struct\x7b\x7d`) at the mapping level. -/
def insertSet (s : List String) (x : String) : List String :=
  if x ∈ s then s else s ++ [x]

/-- `builder.Label(ls...)`: one map write per element.  Writing to the nil
`labels` map panics (`none`); an empty argument list performs no write. -/
def Builder.Label (b : Builder) (ls : List String) : Option Builder :=
  match b.labels with
  | none => if ls.isEmpty then some b else none
  | some s => some { b with labels := some (ls.foldl insertSet s) }

/-- `builder.Comment(cmnt)`: a single map write; panics (`none`) on the nil
`comments` map. -/
def Builder.Comment (b : Builder) (cmnt : String) : Option Builder :=
  match b.comments with
  | none => none
  | some s => some { b with comments := some (insertSet s cmnt) }

/-- The pair sequence written by `builder.With`'s loop: `k := vs[i]`,
`v := vs[i+1]` when present, else the zero value `nil`. -/
def pairsOf : List Val → List (Val × Val)
  | [] => []
  | [k] => [(k, Val.vnil)]
  | k :: v :: rest => (k, v) :: pairsOf rest

/-- `builder.With(vs...)`: returns `b` untouched on an empty argument list;
otherwise performs map writes, panicking (`none`) on the nil `with` map. -/
def Builder.With (b : Builder) (vs : List Val) : Option Builder :=
  if vs.isEmpty then
    some b
  else
    match b.withMap with
    | none => none
    | some m => some { b with withMap := some (m ++ pairsOf vs) }

/-- `builder.Debug(msg)`. -/
def Builder.Debug (b : Builder) (msg : String) : Option Record :=
  b.log lvlDebug msg

/-- `builder.Info(msg)`. -/
def Builder.Info (b : Builder) (msg : String) : Option Record :=
  b.log lvlInfo msg

/-- `builder.Error(msg)`. -/
def Builder.Error (b : Builder) (msg : String) : Option Record :=
  b.log lvlError msg

/-- `Writer`: wraps a context (its clues metadata here). -/
structure Writer where
  Ctx : List (String × Val)
deriving DecidableEq, Repr

/-- `Writer.Write(p)`: `Ctx(w.Ctx).log(lvlInfo, string(p)); return len(p), nil`.
The byte slice `p` is modelled by its string contents; `len(p)` is its
UTF-8 byte size.  The emitted record is returned alongside. -/
def Writer.Write (w : Writer) (p : String) : Option Record × Nat × Option GoError :=
  ((Clog.Ctx w.Ctx).log lvlInfo p, p.utf8ByteSize, none)

/-! ## Settings and log-file resolution (`settings.go`) -/

def LevelDebug : String := "debug"

def LevelInfo : String := "info"

def LevelError : String := "error"

def LevelDisabled : String := "disabled"

def FormatForHumans : String := "human"

def FormatToJSON : String := "json"

def HashSensitiveInfo : String := "hash"

def MaskSensitiveInfo : String := "mask"

def ShowSensitiveInfoInPlainText : String := "plaintext"

def Stdout : String := "stdout"

def Stderr : String := "stderr"

/-- Ambient process state read by `settings.go`: the `ResolvedLogFile`
package variable, the `CLOG_FILE` environment variable, `$HOME`, the
formatted current UTC timestamp, and whether `os.MkdirAll` succeeds. -/
structure OsEnv where
  resolvedLogFile : String
  clogFileEnvVar : String
  homeDir : String
  nowStamp : String
  mkdirOk : Bool
deriving DecidableEq, Repr

/-- `defaultLogFileDir = filepath.Join(os.Getenv("HOME"), "Library", "Logs")`. -/
def defaultLogFileDir (env : OsEnv) : String :=
  env.homeDir ++ "/Library/Logs"

/-- `defaultLogLocation()`: joins the default dir, `clog`, and the
timestamped file name. -/
def defaultLogLocation (env : OsEnv) : String :=
  defaultLogFileDir env ++ "/clog/" ++ env.nowStamp ++ ".log"

/-- `GetLogFileOrDefault(useThisFile)`: return the cached `ResolvedLogFile`
when non-empty; else start from the env var, fall back to the default
location, let a non-empty argument override, rewrite `-` to stdout, and
fall back to stderr when the parent directory cannot be created.  The Go
function only reads `ResolvedLogFile`; the one write to it lives in
`EnsureDefaults`, hence this model is pure. -/
def GetLogFileOrDefault (env : OsEnv) (useThisFile : String) : String :=
  if env.resolvedLogFile.length > 0 then
    env.resolvedLogFile
  else
    let r0 := if env.clogFileEnvVar.length = 0 then defaultLogLocation env
              else env.clogFileEnvVar
    let r1 := if useThisFile.length > 0 then useThisFile else r0
    let r2 := if r1 = "-" then Stdout else r1
    if r2 ≠ Stdout ∧ r2 ≠ Stderr then
      if env.mkdirOk then r2 else Stderr
    else
      r2

/-- The `Settings` struct.  The Go field types are named string types, so
plain strings model them (and admit invalid members). -/
structure Settings where
  File : String
  Format : String
  Level : String
  SensitiveInfoHandling : String
  OnlyLogDebugIfContainsLabel : List String
deriving DecidableEq, Repr

/-- `Settings.EnsureDefaults()`: normalize `Level`, `Format` and
`SensitiveInfoHandling` to their enumerated sets, and resolve an empty
`File`, recording the result in the `ResolvedLogFile` package variable
(the returned `OsEnv`). -/
def Settings.EnsureDefaults (s : Settings) (env : OsEnv) : Settings × OsEnv :=
  let lvl := if s.Level.length = 0 ∨
                s.Level ∉ [LevelDisabled, LevelDebug, LevelInfo, LevelError] then
               LevelInfo
             else s.Level
  let fmt := if s.Format.length = 0 ∨ s.Format ∉ [FormatForHumans, FormatToJSON] then
               FormatForHumans
             else s.Format
  let sih := if s.SensitiveInfoHandling.length = 0 ∨
                s.SensitiveInfoHandling ∉
                  [ShowSensitiveInfoInPlainText, MaskSensitiveInfo, HashSensitiveInfo] then
               ShowSensitiveInfoInPlainText
             else s.SensitiveInfoHandling
  if s.File.length = 0 then
    let f := GetLogFileOrDefault env ""
    ({ s with Level := lvl, Format := fmt, SensitiveInfoHandling := sih, File := f },
     { env with resolvedLogFile := f })
  else
    ({ s with Level := lvl, Format := fmt, SensitiveInfoHandling := sih }, env)

/-! ## The process-wide singleton -/

/-- The `clogger` singleton value.  The zap logger built by `genLogger` is
runtime I/O state; what the claims concern is instance identity and the
settings the instance was built from, so the model carries the
(default-ensured) settings. -/
structure Clogger where
  set : Settings
deriving DecidableEq, Repr

/-- `singleton(set)`: under the mutex, return the existing instance if one
was already constructed; otherwise run `EnsureDefaults` on the given
settings, build the logger, store and return it.  State is the
`cloggerton` package variable plus the `OsEnv` written by
`EnsureDefaults`. -/
def singleton (set : Settings) (env : OsEnv) (cloggerton : Option Clogger) :
    Clogger × OsEnv × Option Clogger :=
  match cloggerton with
  | some c => (c, env, some c)
  | none =>
      let se := set.EnsureDefaults env
      let c : Clogger := { set := se.1 }
      (c, se.2, some c)

/-! ## Lookup lemmas for the emitted field sequence -/

/-- String-keyed clues maps, lifted to `Val` keys. -/
def liftKV (xs : List (String × Val)) : List (Val × Val) :=
  xs.map (fun p => (Val.vstr p.1, p.2))

theorem getv_map_base (m : List (Val × Val)) (k : Val) :
    getv (m.map (fun p => (p.1, RVal.base p.2))) k = Option.map RVal.base (getv m k) := by
  induction m with
  | nil => simp
  | cons p m ih =>
      simp only [List.map_cons, getv_cons, ih]
      by_cases h : p.1 = k
      · simp only [if_pos h]
        cases getv m k <;> rfl
      · simp only [if_neg h]
        cases getv m k <;> rfl

theorem getv_map_base_lift (xs : List (String × Val)) (k : Val) :
    getv (xs.map (fun p => (Val.vstr p.1, RVal.base p.2))) k
      = Option.map RVal.base (getv (liftKV xs) k) := by
  induction xs with
  | nil => simp [liftKV]
  | cons p xs ih =>
      simp only [liftKV, List.map_cons, getv_cons, ih]
      by_cases h : Val.vstr p.1 = k
      · simp only [if_pos h, liftKV]
        cases getv (xs.map (fun p => (Val.vstr p.1, p.2))) k <;> rfl
      · simp only [if_neg h, liftKV]
        cases getv (xs.map (fun p => (Val.vstr p.1, p.2))) k <;> rfl

theorem getv_liftKV_vstr (xs : List (String × Val)) (s : String) :
    getv (liftKV xs) (Val.vstr s) = getv xs s := by
  induction xs with
  | nil => simp [liftKV]
  | cons p xs ih =>
      simp only [liftKV, List.map_cons, getv_cons] at ih ⊢
      rw [ih]
      by_cases h : p.1 = s
      · simp [h]
      · simp [h, Val.vstr.injEq]

/-- `Record.get` of an emission, characterized source by source: the fixed
trailing entries win, then the builder `with` map, then the error-overlaid
context map, then the leading error fields. -/
theorem record_get_log (b : Builder) (l msg : String) (r : Record) (k : Val)
    (hr : b.log l msg = some r) :
    r.get k =
      oor (getv [(Val.vstr "clog_labels", RVal.base (Val.vstrs (keysOf b.labels))),
                 (Val.vstr "clog_comments", RVal.base (Val.vstrs (keysOf b.comments)))] k)
        (oor (Option.map RVal.base (getv (b.withMap.getD []) k))
          (oor (Option.map RVal.base
                  (getv (liftKV (b.ctxData ++ (match b.err with
                                               | none => []
                                               | some e => e.data))) k))
            (getv (match b.err with
                   | none => []
                   | some e => [(Val.vstr "error", RVal.errv e),
                                (Val.vstr "error_labels", RVal.base (Val.vstrs e.labels))]) k))) := by
  have hrec : r = { lvl := l, msg := msg, fields := b.logFields } := by
    by_cases h : (l = lvlDebug ∨ l = lvlInfo ∨ l = lvlError)
    · have := hr
      simp only [Builder.log, if_pos h, Option.some.injEq] at this
      exact this.symm
    · simp [Builder.log, if_neg h] at hr
  subst hrec
  show getv b.logFields k = _
  have hw : (match b.withMap with
             | none => ([] : List (Val × RVal))
             | some m => m.map (fun p => (p.1, RVal.base p.2)))
      = (b.withMap.getD []).map (fun p => (p.1, RVal.base p.2)) := by
    cases b.withMap <;> rfl
  have hcv : (match b.err with
              | none => b.ctxData
              | some e => b.ctxData ++ e.data)
      = b.ctxData ++ (match b.err with
                      | none => []
                      | some e => e.data) := by
    cases b.err <;> simp
  simp only [Builder.logFields, hw, hcv, getv_append, getv_map_base, getv_map_base_lift,
    List.map_map, oor_assoc]

theorem getv_tail_fixed_ne (x y : RVal) (s : String)
    (h1 : s ≠ "clog_labels") (h2 : s ≠ "clog_comments") :
    getv [(Val.vstr "clog_labels", x), (Val.vstr "clog_comments", y)] (Val.vstr s) = none := by
  simp [getv_cons, Val.vstr.injEq, Ne.symm h1, Ne.symm h2]

theorem getv_err_fixed_ne (e : GoError) (s : String)
    (h1 : s ≠ "error") (h2 : s ≠ "error_labels") :
    getv [(Val.vstr "error", RVal.errv e),
          (Val.vstr "error_labels", RVal.base (Val.vstrs e.labels))] (Val.vstr s) = none := by
  simp [getv_cons, Val.vstr.injEq, Ne.symm h1, Ne.symm h2]

/-! ## Claim theorems -/

/-- C1: on every terminal emission with an attached error and a (non-nil)
`with` map, the merged key/value set at any string key outside the fixed
record keys obeys the precedence builder-`With` over error metadata over
context metadata. -/
theorem clog_C1_merge_precedence
    (ctxData edata : List (String × Val)) (emsg : String) (elabels : List String)
    (m : List (Val × Val)) (labs coms : Option (List String))
    (l msg s : String) (r : Record)
    (hs : s ∉ (["clog_labels", "clog_comments", "error", "error_labels"] : List String))
    (hr : Builder.log { ctxData := ctxData, err := some ⟨emsg, edata, elabels⟩,
                        withMap := some m, labels := labs, comments := coms } l msg = some r) :
    r.get (Val.vstr s) =
      oor (Option.map RVal.base (getv m (Val.vstr s)))
        (oor (Option.map RVal.base (getv edata s))
          (Option.map RVal.base (getv ctxData s))) := by
  have h1 : s ≠ "clog_labels" := by intro h; exact hs (by simp [h])
  have h2 : s ≠ "clog_comments" := by intro h; exact hs (by simp [h])
  have h3 : s ≠ "error" := by intro h; exact hs (by simp [h])
  have h4 : s ≠ "error_labels" := by intro h; exact hs (by simp [h])
  rw [record_get_log _ _ _ _ _ hr]
  dsimp only
  rw [getv_tail_fixed_ne _ _ _ h1 h2, getv_err_fixed_ne _ _ h3 h4]
  have hsplit : liftKV (ctxData ++ edata) = liftKV ctxData ++ liftKV edata := by
    simp [liftKV]
  rw [hsplit, getv_append, getv_liftKV_vstr, getv_liftKV_vstr, map_oor]
  simp [oor_assoc]

def bC1 : Builder :=
  { ctxData := [("foo", Val.vstr "bar")]
    err := some ⟨"an error", [("foo", Val.vstr "baz"), ("fnords", Val.vstr "smarf")], ["errLabel"]⟩
    withMap := some [(Val.vstr "foo", Val.vstr "qux")]
    labels := none
    comments := none }

def recC1 : Record :=
  { lvl := lvlInfo, msg := "all the info", fields := bC1.logFields }

/-- C1 witness: the spec's own example — context `foo: bar`, error
`foo: baz, fnords: smarf`, builder `With("foo","qux")` — emits `foo: qux`
and `fnords: smarf`. -/
theorem clog_C1_witness :
    ("foo" ∉ (["clog_labels", "clog_comments", "error", "error_labels"] : List String))
    ∧ bC1.log lvlInfo "all the info" = some recC1
    ∧ recC1.get (Val.vstr "foo") =
        oor (Option.map RVal.base (getv [(Val.vstr "foo", Val.vstr "qux")] (Val.vstr "foo")))
          (oor (Option.map RVal.base
                  (getv [("foo", Val.vstr "baz"), ("fnords", Val.vstr "smarf")] "foo"))
            (Option.map RVal.base (getv [("foo", Val.vstr "bar")] "foo")))
    ∧ recC1.get (Val.vstr "fnords") =
        oor (Option.map RVal.base (getv [(Val.vstr "foo", Val.vstr "qux")] (Val.vstr "fnords")))
          (oor (Option.map RVal.base
                  (getv [("foo", Val.vstr "baz"), ("fnords", Val.vstr "smarf")] "fnords"))
            (Option.map RVal.base (getv [("foo", Val.vstr "bar")] "fnords")))
    ∧ recC1.get (Val.vstr "foo") = some (RVal.base (Val.vstr "qux"))
    ∧ recC1.get (Val.vstr "fnords") = some (RVal.base (Val.vstr "smarf")) :=
  ⟨by decide,
   by decide,
   clog_C1_merge_precedence
     [("foo", Val.vstr "bar")]
     [("foo", Val.vstr "baz"), ("fnords", Val.vstr "smarf")]
     "an error" ["errLabel"]
     [(Val.vstr "foo", Val.vstr "qux")]
     none none lvlInfo "all the info" "foo" recC1 (by decide) (by decide),
   clog_C1_merge_precedence
     [("foo", Val.vstr "bar")]
     [("foo", Val.vstr "baz"), ("fnords", Val.vstr "smarf")]
     "an error" ["errLabel"]
     [(Val.vstr "foo", Val.vstr "qux")]
     none none lvlInfo "all the info" "fnords" recC1 (by decide) (by decide),
   by decide,
   by decide⟩

/-- C10: with no attached error, a terminal emission performs no error
overlay and attaches no `error` / `error_labels` fields: the merged
mapping is exactly context metadata overlaid by the builder `With` map,
plus the fixed `clog_labels` / `clog_comments` entries. -/
theorem clog_C10_no_error_frame
    (ctxData : List (String × Val)) (wm : Option (List (Val × Val)))
    (labs coms : Option (List String)) (l msg : String) (r : Record)
    (hr : Builder.log { ctxData := ctxData, err := none, withMap := wm,
                        labels := labs, comments := coms } l msg = some r) :
    (∀ k : Val, k ∉ [Val.vstr "clog_labels", Val.vstr "clog_comments"] →
        r.get k = oor (Option.map RVal.base (getv (wm.getD []) k))
                      (Option.map RVal.base (getv (liftKV ctxData) k)))
    ∧ r.get (Val.vstr "clog_labels") = some (RVal.base (Val.vstrs (keysOf labs)))
    ∧ r.get (Val.vstr "clog_comments") = some (RVal.base (Val.vstrs (keysOf coms)))
    ∧ (getv (wm.getD []) (Val.vstr "error") = none → getv ctxData "error" = none →
        r.get (Val.vstr "error") = none)
    ∧ (getv (wm.getD []) (Val.vstr "error_labels") = none →
        getv ctxData "error_labels" = none →
        r.get (Val.vstr "error_labels") = none) := by
  have hmain : ∀ k : Val, r.get k =
      oor (getv [(Val.vstr "clog_labels", RVal.base (Val.vstrs (keysOf labs))),
                 (Val.vstr "clog_comments", RVal.base (Val.vstrs (keysOf coms)))] k)
        (oor (Option.map RVal.base (getv (wm.getD []) k))
          (Option.map RVal.base (getv (liftKV ctxData) k))) := by
    intro k
    have h := record_get_log _ l msg r k hr
    dsimp only at h
    simpa [List.append_nil] using h
  refine ⟨?_, ?_, ?_, ?_, ?_⟩
  · intro k hk
    have hk1 : ¬ Val.vstr "clog_labels" = k := by
      intro h; exact hk (by simp [← h])
    have hk2 : ¬ Val.vstr "clog_comments" = k := by
      intro h; exact hk (by simp [← h])
    rw [hmain k]
    simp [getv_cons, hk1, hk2]
  · rw [hmain _]
    simp [getv_cons, Val.vstr.injEq]
  · rw [hmain _]
    simp [getv_cons, Val.vstr.injEq]
  · intro h1 h2
    rw [hmain _]
    simp [getv_cons, Val.vstr.injEq, getv_liftKV_vstr, h1, h2]
  · intro h1 h2
    rw [hmain _]
    simp [getv_cons, Val.vstr.injEq, getv_liftKV_vstr, h1, h2]

def bC10 : Builder :=
  { ctxData := [("foo", Val.vstr "bar")]
    err := none
    withMap := some [(Val.vstr "beaux", Val.vstr "regarde")]
    labels := none
    comments := some ["a comment"]}

def recC10 : Record :=
  { lvl := lvlError, msg := "no err attached", fields := bC10.logFields }

/-- C10 witness: a concrete error-free emission — the merged mapping has the
`With` pair and the context pair, the fixed entries, and no `error` /
`error_labels` fields. -/
theorem clog_C10_witness :
    bC10.log lvlError "no err attached" = some recC10
    ∧ ((Val.vstr "foo" : Val) ∉ [Val.vstr "clog_labels", Val.vstr "clog_comments"])
    ∧ recC10.get (Val.vstr "foo") =
        oor (Option.map RVal.base
              (getv ((some [(Val.vstr "beaux", Val.vstr "regarde")]).getD []) (Val.vstr "foo")))
          (Option.map RVal.base (getv (liftKV [("foo", Val.vstr "bar")]) (Val.vstr "foo")))
    ∧ recC10.get (Val.vstr "error") = none
    ∧ recC10.get (Val.vstr "error_labels") = none
    ∧ recC10.get (Val.vstr "beaux") = some (RVal.base (Val.vstr "regarde"))
    ∧ recC10.get (Val.vstr "clog_comments") = some (RVal.base (Val.vstrs ["a comment"])) :=
  ⟨by decide,
   by decide,
   (clog_C10_no_error_frame [("foo", Val.vstr "bar")]
      (some [(Val.vstr "beaux", Val.vstr "regarde")]) none (some ["a comment"])
      lvlError "no err attached" recC10 (by decide)).1 (Val.vstr "foo") (by decide),
   (clog_C10_no_error_frame [("foo", Val.vstr "bar")]
      (some [(Val.vstr "beaux", Val.vstr "regarde")]) none (some ["a comment"])
      lvlError "no err attached" recC10 (by decide)).2.2.2.1 (by decide) (by decide),
   (clog_C10_no_error_frame [("foo", Val.vstr "bar")]
      (some [(Val.vstr "beaux", Val.vstr "regarde")]) none (some ["a comment"])
      lvlError "no err attached" recC10 (by decide)).2.2.2.2 (by decide) (by decide),
   by decide,
   by decide⟩

def setC2 : Settings :=
  { File := "stderr"
    Format := "human"
    Level := "debug"
    SensitiveInfoHandling := "plaintext"
    OnlyLogDebugIfContainsLabel := ["clabel_api_call"] }

/-- C2 (code bug evidence): with a non-empty debug-label allow-list in
`Settings` and an empty accumulated label set, the `Debug` emission is still
delivered: `builder.log` never consults `OnlyLogDebugIfContainsLabel`. -/
theorem clog_C2_debug_delivered_despite_filter :
    setC2.OnlyLogDebugIfContainsLabel ≠ []
    ∧ keysOf (newBuilder [("k", Val.vstr "v")]).labels = []
    ∧ (newBuilder [("k", Val.vstr "v")]).Debug "an unlabeled debug log"
        = some { lvl := lvlDebug, msg := "an unlabeled debug log",
                 fields := (newBuilder [("k", Val.vstr "v")]).logFields } := by
  refine ⟨by decide, by decide, by decide⟩

/-- C3 (code bug evidence): a builder freshly obtained from a context has
nil (not empty) `with` / `labels` / `comments` maps, so the fluent mutators
`Label`, `Comment` and `With` panic (`none`) on it — only `Err` succeeds. -/
theorem clog_C3_fresh_builder_mutators_panic :
    (Ctx [("k", Val.vstr "v")]).withMap = none
    ∧ (Ctx [("k", Val.vstr "v")]).labels = none
    ∧ (Ctx [("k", Val.vstr "v")]).comments = none
    ∧ Builder.Comment (Ctx [("k", Val.vstr "v")]) "a comment" = none
    ∧ Builder.Label (Ctx [("k", Val.vstr "v")]) ["l1", "l2"] = none
    ∧ Builder.With (Ctx [("k", Val.vstr "v")]) [Val.vstr "foo", Val.vstr "bar"] = none
    ∧ Builder.Comment (CtxErr [("k", Val.vstr "v")] ⟨"an error", [], []⟩) "c" = none
    ∧ Builder.Err (Ctx [("k", Val.vstr "v")]) ⟨"an error", [], []⟩
        = { Ctx [("k", Val.vstr "v")] with err := some ⟨"an error", [], []⟩ } := by
  refine ⟨by decide, by decide, by decide, by decide, by decide, by decide, by decide, by decide⟩

/-- C9: `Writer.Write` emits the payload as one info-level record and
returns the full byte count with no error, for every context and
payload. -/
theorem clog_C9_writer_write (ctxData : List (String × Val)) (p : String) :
    (Writer.Write ⟨ctxData⟩ p).2.1 = p.utf8ByteSize
    ∧ (Writer.Write ⟨ctxData⟩ p).2.2 = none
    ∧ (Writer.Write ⟨ctxData⟩ p).1
        = some { lvl := lvlInfo, msg := p, fields := (newBuilder ctxData).logFields } := by
  refine ⟨rfl, rfl, ?_⟩
  simp [Writer.Write, Ctx, Builder.log, lvlInfo, lvlDebug, lvlError]

def envC4first : OsEnv :=
  { resolvedLogFile := ""
    clogFileEnvVar := ""
    homeDir := "/home/user"
    nowStamp := "2024-05-01T10-00-00Z"
    mkdirOk := true }

def envC4second : OsEnv :=
  { envC4first with nowStamp := "2024-05-01T10-00-01Z" }

/-- C4 (code bug evidence): `GetLogFileOrDefault` never writes the
`ResolvedLogFile` cache (only `EnsureDefaults` does), so with an empty
cache and no `CLOG_FILE`, each call re-derives the timestamped default:
two back-to-back calls straddling a second boundary return different
paths. -/
theorem clog_C4_uncached_calls_differ :
    envC4first.resolvedLogFile = ""
    ∧ GetLogFileOrDefault envC4first ""
        = "/home/user/Library/Logs/clog/2024-05-01T10-00-00Z.log"
    ∧ GetLogFileOrDefault envC4second ""
        = "/home/user/Library/Logs/clog/2024-05-01T10-00-01Z.log"
    ∧ GetLogFileOrDefault envC4first "" ≠ GetLogFileOrDefault envC4second "" := by
  refine ⟨by decide, by decide, by decide, by decide⟩

def envC5 : OsEnv :=
  { resolvedLogFile := "/tmp/cached.log"
    clogFileEnvVar := "/tmp/env.log"
    homeDir := "/home/user"
    nowStamp := "2024-05-01T10-00-00Z"
    mkdirOk := true }

/-- C5 counterexample: a previously cached resolution beats the explicit
override argument — the claim's order (override first) fails. -/
theorem clog_C5_counterexample :
    GetLogFileOrDefault envC5 "/tmp/override.log" = "/tmp/cached.log"
    ∧ ("/tmp/cached.log" : String) ≠ "/tmp/override.log" := by
  refine ⟨by decide, by decide⟩

/-- The resolution order as amended: a previously cached value wins over
the explicit override argument, which wins over the environment variable,
which wins over the computed default; the `-`-to-stdout rewrite and the
directory-creation fallback-to-stderr apply only on the non-cached path. -/
def canonicalResolution (env : OsEnv) (useThisFile : String) : String :=
  if env.resolvedLogFile.length > 0 then
    env.resolvedLogFile
  else
    let chosen := if useThisFile.length > 0 then useThisFile
                  else if env.clogFileEnvVar.length > 0 then env.clogFileEnvVar
                  else defaultLogLocation env
    let rewritten := if chosen = "-" then Stdout else chosen
    if rewritten ≠ Stdout ∧ rewritten ≠ Stderr ∧ ¬ env.mkdirOk then Stderr else rewritten

/-- C5 (amended): `GetLogFileOrDefault` realizes exactly the amended
precedence cached > override argument > environment variable > computed
default, followed by the `-` rewrite and the mkdir fallback. -/
theorem clog_C5_resolution_order (env : OsEnv) (u : String) :
    GetLogFileOrDefault env u = canonicalResolution env u := by
  unfold GetLogFileOrDefault canonicalResolution
  by_cases h0 : env.resolvedLogFile.length > 0
  · simp [h0]
  · simp only [if_neg h0]
    by_cases hu : u.length > 0
    · have hu' : ¬ u.length = 0 := by omega
      simp only [hu, if_pos, hu', if_neg, ite_true]
      split_ifs <;> simp_all
    · have hu' : u.length = 0 := by omega
      simp only [hu, hu']
      split_ifs <;> simp_all

theorem defaultLogLocation_length_pos (env : OsEnv) : 0 < (defaultLogLocation env).length := by
  unfold defaultLogLocation
  rw [String.length_append]
  have h4 : (".log" : String).length = 4 := rfl
  omega

/-- Every branch of `GetLogFileOrDefault` yields a non-empty path. -/
theorem GetLogFileOrDefault_length_pos (env : OsEnv) (u : String) :
    0 < (GetLogFileOrDefault env u).length := by
  unfold GetLogFileOrDefault
  by_cases h1 : env.resolvedLogFile.length > 0
  · simp [h1]
  · simp only [if_neg h1]
    have hpos : 0 < (if env.clogFileEnvVar.length = 0 then defaultLogLocation env
                     else env.clogFileEnvVar).length := by
      split_ifs with h
      · exact defaultLogLocation_length_pos env
      · omega
    split_ifs <;>
      first
        | decide
        | omega
        | assumption
        | exact defaultLogLocation_length_pos env

/-- A field already normalized into its enumerated set stays put on a
second normalization. -/
theorem norm_stable (x dflt : String) (valid : List String) (hd : dflt ∈ valid)
    (hl : ¬ dflt.length = 0) :
    ¬ (((if x.length = 0 ∨ x ∉ valid then dflt else x).length = 0)
       ∨ (if x.length = 0 ∨ x ∉ valid then dflt else x) ∉ valid) := by
  by_cases h : x.length = 0 ∨ x ∉ valid
  · simp only [if_pos h]
    push_neg
    exact ⟨hl, hd⟩
  · simp only [if_neg h]
    exact h

/-- C6: `EnsureDefaults` replaces an empty or invalid `Level` / `Format` /
`SensitiveInfoHandling` with its documented default (info / human /
plaintext), and applying it twice equals applying it once. -/
theorem clog_C6_defaults_idempotent (s : Settings) (env : OsEnv) :
    ((s.Level.length = 0 ∨ s.Level ∉ [LevelDisabled, LevelDebug, LevelInfo, LevelError]) →
        (s.EnsureDefaults env).1.Level = LevelInfo)
    ∧ ((s.Format.length = 0 ∨ s.Format ∉ [FormatForHumans, FormatToJSON]) →
        (s.EnsureDefaults env).1.Format = FormatForHumans)
    ∧ ((s.SensitiveInfoHandling.length = 0 ∨
          s.SensitiveInfoHandling ∉
            [ShowSensitiveInfoInPlainText, MaskSensitiveInfo, HashSensitiveInfo]) →
        (s.EnsureDefaults env).1.SensitiveInfoHandling = ShowSensitiveInfoInPlainText)
    ∧ Settings.EnsureDefaults (s.EnsureDefaults env).1 (s.EnsureDefaults env).2
        = s.EnsureDefaults env := by
  have hL := norm_stable s.Level LevelInfo
    [LevelDisabled, LevelDebug, LevelInfo, LevelError] (by decide) (by decide)
  have hF := norm_stable s.Format FormatForHumans
    [FormatForHumans, FormatToJSON] (by decide) (by decide)
  have hS := norm_stable s.SensitiveInfoHandling ShowSensitiveInfoInPlainText
    [ShowSensitiveInfoInPlainText, MaskSensitiveInfo, HashSensitiveInfo] (by decide) (by decide)
  have hsplit : s.EnsureDefaults env =
      ({ s with
          Level := if s.Level.length = 0 ∨
                      s.Level ∉ [LevelDisabled, LevelDebug, LevelInfo, LevelError] then
                     LevelInfo else s.Level
          Format := if s.Format.length = 0 ∨ s.Format ∉ [FormatForHumans, FormatToJSON] then
                      FormatForHumans else s.Format
          SensitiveInfoHandling := if s.SensitiveInfoHandling.length = 0 ∨
                      s.SensitiveInfoHandling ∉
                        [ShowSensitiveInfoInPlainText, MaskSensitiveInfo, HashSensitiveInfo] then
                      ShowSensitiveInfoInPlainText else s.SensitiveInfoHandling
          File := if s.File.length = 0 then GetLogFileOrDefault env "" else s.File },
       if s.File.length = 0 then { env with resolvedLogFile := GetLogFileOrDefault env "" }
       else env) := by
    unfold Settings.EnsureDefaults
    by_cases hf : s.File.length = 0
    · rw [if_pos hf, if_pos hf, if_pos hf]
    · rw [if_neg hf, if_neg hf, if_neg hf]
  refine ⟨?_, ?_, ?_, ?_⟩
  · intro h
    rw [hsplit]
    exact if_pos h
  · intro h
    rw [hsplit]
    exact if_pos h
  · intro h
    rw [hsplit]
    exact if_pos h
  · rw [hsplit]
    have hfile : ¬ (if s.File.length = 0 then GetLogFileOrDefault env "" else s.File).length = 0 := by
      by_cases hf : s.File.length = 0
      · rw [if_pos hf]
        have := GetLogFileOrDefault_length_pos env ""
        omega
      · rw [if_neg hf]
        exact hf
    unfold Settings.EnsureDefaults
    rw [if_neg hfile, if_neg hL, if_neg hF, if_neg hS]

def setC6 : Settings :=
  { File := "/tmp/some.log"
    Format := "bogus-format"
    Level := ""
    SensitiveInfoHandling := "rot13"
    OnlyLogDebugIfContainsLabel := [] }

def envC6 : OsEnv :=
  { resolvedLogFile := ""
    clogFileEnvVar := ""
    homeDir := "/home/user"
    nowStamp := "2024-05-01T10-00-00Z"
    mkdirOk := true }

/-- C6 witness: a Settings value with empty `Level`, invalid `Format` and
invalid `SensitiveInfoHandling` gets all three documented defaults, and a
second `EnsureDefaults` is a no-op. -/
theorem clog_C6_witness :
    (setC6.EnsureDefaults envC6).1.Level = LevelInfo
    ∧ (setC6.EnsureDefaults envC6).1.Format = FormatForHumans
    ∧ (setC6.EnsureDefaults envC6).1.SensitiveInfoHandling = ShowSensitiveInfoInPlainText
    ∧ Settings.EnsureDefaults (setC6.EnsureDefaults envC6).1 (setC6.EnsureDefaults envC6).2
        = setC6.EnsureDefaults envC6 :=
  ⟨(clog_C6_defaults_idempotent setC6 envC6).1 (by decide),
   (clog_C6_defaults_idempotent setC6 envC6).2.1 (by decide),
   (clog_C6_defaults_idempotent setC6 envC6).2.2.1 (by decide),
   (clog_C6_defaults_idempotent setC6 envC6).2.2.2⟩

/-- C7: once the singleton is constructed, every later `singleton` call
returns the same instance unchanged, whatever settings it is given; in
particular a second call after the constructing call changes nothing. -/
theorem clog_C7_singleton_stable (s1 s2 : Settings) (env : OsEnv) (c : Clogger) :
    singleton s2 env (some c) = (c, env, some c)
    ∧ singleton s2 (singleton s1 env none).2.1 (singleton s1 env none).2.2
        = singleton s1 env none := by
  exact ⟨rfl, rfl⟩

/-- C8 counterexample: on a builder freshly obtained from a context the
`with` map is nil, so `With("a",1,"b",2,"a",3)` panics (`none`) instead of
yielding the mapping `a:3, b:2`. -/
theorem clog_C8_counterexample :
    Builder.With (Ctx [("k", Val.vstr "v")])
      [Val.vstr "a", Val.vint 1, Val.vstr "b", Val.vint 2, Val.vstr "a", Val.vint 3]
      = none := by
  decide

/-- C8 (amended): on every builder whose `with` map is initialized
(non-nil), `With` consumes the argument sequence as alternating key/value
pairs appended left to right — so in the resulting mapping a repeated key
overwrites its earlier value and, on an odd-length sequence, the final key
gets the nil value (`pairsOf`). -/
theorem clog_C8_with_pairs (b : Builder) (m : List (Val × Val)) (vs : List Val)
    (h : b.withMap = some m) :
    Builder.With b vs = some { b with withMap := some (m ++ pairsOf vs) }
    ∧ ∀ k : Val, getv (m ++ pairsOf vs) k = oor (getv (pairsOf vs) k) (getv m k) := by
  constructor
  · unfold Builder.With
    by_cases hv : vs.isEmpty
    · have hvs : vs = [] := by
        cases vs
        · rfl
        · simp [List.isEmpty] at hv
      subst hvs
      simp only [List.isEmpty_nil, if_pos, pairsOf, List.append_nil, ite_true]
      rw [← h]
    · rw [if_neg hv, h]
  · intro k
    exact getv_append m (pairsOf vs) k

def bC8 : Builder :=
  { ctxData := []
    err := none
    withMap := some []
    labels := none
    comments := none }

/-- C8 witness: from an initialized empty map, `With("a",1,"b",2,"a",3)`
yields the mapping `a:3, b:2`, and the odd-length `With("a",1,"b")` yields
`a:1` with `b` mapped to nil. -/
theorem clog_C8_witness :
    Builder.With bC8 [Val.vstr "a", Val.vint 1, Val.vstr "b", Val.vint 2, Val.vstr "a", Val.vint 3]
      = some { bC8 with withMap := (some ([] ++ pairsOf [Val.vstr "a", Val.vint 1,
          Val.vstr "b", Val.vint 2, Val.vstr "a", Val.vint 3])) }
    ∧ getv ([] ++ pairsOf [Val.vstr "a", Val.vint 1, Val.vstr "b", Val.vint 2,
                           Val.vstr "a", Val.vint 3]) (Val.vstr "a") = some (Val.vint 3)
    ∧ getv ([] ++ pairsOf [Val.vstr "a", Val.vint 1, Val.vstr "b", Val.vint 2,
                           Val.vstr "a", Val.vint 3]) (Val.vstr "b") = some (Val.vint 2)
    ∧ Builder.With bC8 [Val.vstr "a", Val.vint 1, Val.vstr "b"]
      = some { bC8 with withMap := some ([] ++ pairsOf [Val.vstr "a", Val.vint 1, Val.vstr "b"]) }
    ∧ getv ([] ++ pairsOf [Val.vstr "a", Val.vint 1, Val.vstr "b"]) (Val.vstr "a")
        = some (Val.vint 1)
    ∧ getv ([] ++ pairsOf [Val.vstr "a", Val.vint 1, Val.vstr "b"]) (Val.vstr "b")
        = some Val.vnil :=
  ⟨(clog_C8_with_pairs bC8 []
      [Val.vstr "a", Val.vint 1, Val.vstr "b", Val.vint 2, Val.vstr "a", Val.vint 3] rfl).1,
   by decide,
   by decide,
   (clog_C8_with_pairs bC8 [] [Val.vstr "a", Val.vint 1, Val.vstr "b"] rfl).1,
   by decide,
   by decide⟩

end Clog
